import Mathlib

/-!
Verification development for the Rocket encrypted chunked-upload pipeline.

The definitions below are a shallow embedding of the repository's Rust
source.  Bytes are modelled as `List Nat`; machine integers that the code
stores in `i64` columns are modelled as `Int`.  Randomness (fresh nonces,
fresh DEKs, fresh upload ids) is determinized by passing the drawn value as
an explicit argument.  External crates (`aes_gcm`, `argon2`) are modelled
symbolically as ideal primitives; everything else follows the repository
code, file by file.

The stateful upload pipeline (`src/src/handlers/files.rs`) is embedded as a
set of operations on an explicit state `St` describing the data visible to
one user: the user's quota row, the Redis keys the handlers touch
(`upload:{user}:{sid}`, `user_uploading:{user}`, `user_downloading:{user}`,
each with its expiry time and a logical clock `now`), the `files` table rows
of that user, and the set of staged chunk files on disk.  Every operation
returns the handler's `Result` together with the post-state, so that
error paths that mutate state (cleanup) are captured faithfully.
-/

namespace Rocket

/-- Error type from `src/src/error.rs` (`enum AppError`).  Variants that
carry a foreign error object (`tokio_postgres::Error`, pool errors,
`redis::RedisError`, `std::io::Error`) carry their display string here. -/
inductive AppError where
  | Postgres : String → AppError
  | Pool : String → AppError
  | PoolBuild : String → AppError
  | Redis : String → AppError
  | Io : String → AppError
  | Authentication : String → AppError
  | Unauthorized : AppError
  | NotFound : AppError
  | Validation : String → AppError
  | Encryption : String → AppError
  | Multipart : String → AppError
  | Internal : String → AppError
  | RateLimitExceeded : String → AppError
deriving DecidableEq

/-- Decidable equality of handler results, used to evaluate concrete runs
of the embedded handlers. -/
instance instDecEqExcept {ε α : Type} [DecidableEq ε] [DecidableEq α] :
    DecidableEq (Except ε α) := fun x y =>
  match x, y with
  | .error a, .error b =>
      if h : a = b then .isTrue (by rw [h])
      else .isFalse (fun hc => h (Except.error.inj hc))
  | .error _, .ok _ => .isFalse (fun hc => Except.noConfusion hc)
  | .ok _, .error _ => .isFalse (fun hc => Except.noConfusion hc)
  | .ok a, .ok b =>
      if h : a = b then .isTrue (by rw [h])
      else .isFalse (fun hc => h (Except.ok.inj hc))

/-- HTTP status code assigned to each error kind by
`impl IntoResponse for AppError` in `src/src/error.rs`. -/
def statusOf : AppError → Nat
  | .Postgres _ => 500
  | .Pool _ => 500
  | .PoolBuild _ => 500
  | .Redis _ => 500
  | .Io _ => 500
  | .Authentication _ => 401
  | .Unauthorized => 403
  | .NotFound => 404
  | .Validation _ => 400
  | .Encryption _ => 500
  | .Multipart _ => 400
  | .Internal _ => 500
  | .RateLimitExceeded _ => 429

/-- Byte strings (`Vec<u8>` / `&[u8]`), each element a byte value. -/
abbrev Bytes := List Nat

/-- Deterministic mixing of a byte string into a natural number; used by the
symbolic model of the AEAD cipher and of the password KDF below. -/
def mixBytes (l : Bytes) : Nat :=
  l.foldl (fun a b => a * 257 + b + 1) 7

namespace aes

/-- Constant `KEY_SIZE` from `src/src/crypto/aes.rs`. -/
def KEY_SIZE : Nat := 32

/-- Constant `NONCE_SIZE` from `src/src/crypto/aes.rs`. -/
def NONCE_SIZE : Nat := 12

/-- Authentication tag of the symbolic AEAD model: 16 bytes determined by
key, nonce and plaintext.  The real code delegates to the external
`aes_gcm` crate (AES-256-GCM); what the repository relies on is the AEAD
contract: ciphertext is 16 bytes longer than plaintext, and decryption
with the same key and nonce recovers the plaintext while a tag mismatch
fails. -/
def aeadTag (key nonce plaintext : Bytes) : Bytes :=
  List.replicate 16 ((mixBytes key * 3 + mixBytes nonce * 5 + mixBytes plaintext) % 256)

/-- Model of `aes::encrypt` from `src/src/crypto/aes.rs`.  The Rust function
draws a fresh random nonce from the CSPRNG; here the drawn nonce is passed
as the last argument.  Returns `(ciphertext, nonce)` where the ciphertext
includes the 16-byte authentication tag. -/
def encrypt (key : Bytes) (plaintext : Bytes) (nonce : Bytes) : Bytes × Bytes :=
  (plaintext ++ aeadTag key nonce plaintext, nonce)

/-- Model of `aes::decrypt` from `src/src/crypto/aes.rs`: verifies the
authentication tag and recovers the plaintext; fails with
`AppError::Encryption` when the tag does not verify. -/
def decrypt (key : Bytes) (ciphertext : Bytes) (nonce : Bytes) : Except AppError Bytes :=
  if ciphertext.length < 16 then
    .error (.Encryption "Decryption failed")
  else if ciphertext.drop (ciphertext.length - 16) =
      aeadTag key nonce (ciphertext.take (ciphertext.length - 16)) then
    .ok (ciphertext.take (ciphertext.length - 16))
  else
    .error (.Encryption "Decryption failed")

end aes

namespace dek

/-- Validity of a stored Argon2 salt string: `SaltString::new` in the
`argon2` crate accepts a non-empty B64 salt of at most 64 characters.
The repository stores the salt string's bytes verbatim and re-parses them
on every derivation. -/
def saltOk (salt : String) : Bool :=
  decide (0 < salt.length) && decide (salt.length ≤ 64)

/-- Model of `derive_key_from_password` from `src/src/crypto/dek.rs`.  The
Rust function runs Argon2id (external `argon2` crate) with fixed cost
parameters and truncates the hash to 32 bytes; the model keeps the two
properties the repository relies on: the output is a deterministic function
of `(password, salt)` and is exactly `KEY_SIZE` bytes long. -/
def derive_key_from_password (password salt : String) : Bytes :=
  (List.range aes.KEY_SIZE).map (fun i =>
    (mixBytes (password.toList.map Char.toNat) * 31 +
     mixBytes (salt.toList.map Char.toNat) * 17 + i) % 256)

/-- Model of `create_user_dek` from `src/src/crypto/dek.rs`, determinized:
the Rust function draws a random 32-byte DEK, a random 16-byte salt and a
random nonce; here the drawn DEK, the encoded salt string and the nonce are
passed as arguments.  Returns the wrapped DEK (ciphertext with the 12-byte
nonce appended) together with the salt string. -/
def create_user_dek (user_password : String) (dekBytes : Bytes) (salt : String)
    (nonce : Bytes) : Except AppError (Bytes × String) :=
  if saltOk salt = false then
    .error (.Encryption "Salt encoding error")
  else
    let password_key := derive_key_from_password user_password salt
    let (encrypted_dek, n) := aes.encrypt password_key dekBytes nonce
    .ok (encrypted_dek ++ n, salt)

/-- Embedding of `decrypt_user_dek` from `src/src/crypto/dek.rs`: parse the
salt, require at least 60 bytes of wrapped input, split the trailing 12
bytes off as the nonce, derive the password key and AEAD-decrypt; the first
32 bytes of the plaintext are the DEK.  Every failure path produces an
`AppError::Encryption` value (`aes::decrypt` failures included). -/
def decrypt_user_dek (encrypted_dek_with_nonce : Bytes) (salt : String)
    (user_password : String) : Except AppError Bytes :=
  if saltOk salt = false then
    .error (.Encryption "Salt parse error")
  else if encrypted_dek_with_nonce.length < 60 then
    .error (.Encryption "Invalid encrypted DEK size")
  else
    match aes.decrypt (derive_key_from_password user_password salt)
        (encrypted_dek_with_nonce.take (encrypted_dek_with_nonce.length - 12))
        (encrypted_dek_with_nonce.drop (encrypted_dek_with_nonce.length - 12)) with
    | .error e => .error e
    | .ok decrypted =>
        if decrypted.length < aes.KEY_SIZE then
          .error (.Encryption "Invalid DEK size")
        else
          .ok (decrypted.take aes.KEY_SIZE)

end dek

namespace files

/-- Constant `MAX_FILE_SIZE` (50 GiB) from `src/src/handlers/files.rs`. -/
def MAX_FILE_SIZE : Int := 50 * 1024 * 1024 * 1024

/-- Constant `CHUNK_SIZE` (6 MiB) from `src/src/handlers/files.rs`. -/
def CHUNK_SIZE : Int := 6 * 1024 * 1024

/-- Constant `UPLOAD_EXPIRATION_SECS` from `src/src/handlers/files.rs`. -/
def UPLOAD_EXPIRATION_SECS : Int := 86400

/-- Constant `DOWNLOAD_EXPIRATION_SECS` from `src/src/handlers/files.rs`. -/
def DOWNLOAD_EXPIRATION_SECS : Int := 3600

/-- Staging directory (`PathBuf::from("uploads/files")` in the handlers). -/
def upload_dir : String := "uploads/files"

/-- Staged chunk file name, the `format!` string used identically in
`upload_chunk`, `finalize_upload`, `cleanup_failed_upload` and
`cleanup_expired_uploads`. -/
def chunkFilename (sid : String) (idx : Nat) : String :=
  sid ++ "_" ++ toString idx ++ ".encrypted_chunk"

/-- Full path of a staged chunk file inside the staging directory. -/
def chunkPath (sid : String) (idx : Nat) : String :=
  upload_dir ++ "/" ++ chunkFilename sid idx

/-- Struct `UploadMetadata` from `src/src/handlers/files.rs` (the user id is
implicit: the state `St` below already describes a single user). -/
structure UploadMetadata where
  upload_session_id : String
  filename : String
  total_size : Int
  total_chunks : Nat
  chunks_received_count : Nat
  expected_hash : Option String
  created_at : Int
  chunks_written_bytes : Int
  chunk_nonces : List Bytes
deriving DecidableEq

/-- Struct `ChunkInfo` from `src/src/handlers/files.rs` (the chunk-table
entry serialized into `files.chunks_metadata`). -/
structure ChunkInfo where
  index : Nat
  nonce : Bytes
  filename : String
  size_encrypted : Int
deriving DecidableEq

/-- Row of the `files` table as written by `finalize_upload` and read by
`download_file` / `delete_file`. -/
structure FileRec where
  id : Nat
  original_filename : String
  total_chunks : Nat
  chunks_metadata : List ChunkInfo
  encrypted_dek : Bytes
  nonce : Bytes
  dek_version : Nat
  file_size : Int
  checksum_sha256 : Option String
  is_deleted : Bool
deriving DecidableEq

/-- State visible to one user: the quota columns of the user's row, the
upload-session KV entries (`upload:{user}:{sid}`, each with its Redis
expiry time), the `user_uploading:{user}` and `user_downloading:{user}`
lock keys (their expiry times when set), the user's `files` rows, the
staged chunk files present on disk, and a logical clock `now` giving the
current Unix time used for Redis TTLs and `Utc::now().timestamp()`. -/
structure St where
  now : Int
  storage_quota_bytes : Int
  storage_used_bytes : Int
  uploadSessions : List (String × UploadMetadata × Int)
  uploadLockExpiry : Option Int
  downloadLockExpiry : Option Int
  files : List FileRec
  staged : List String
deriving DecidableEq

/-- Redis `GET upload:{user}:{sid}` followed by the bincode decode: the key
yields a value only while its expiry lies in the future. -/
def lookupSession (s : St) (sid : String) : Option UploadMetadata :=
  match s.uploadSessions.find? (fun p => p.1 == sid) with
  | some (_, m, exp) => if s.now < exp then some m else none
  | none => none

/-- Redis `SET upload:{user}:{sid} .. EX UPLOAD_EXPIRATION_SECS`
(`set_ex` in `init_upload` and `upload_chunk`): stores the serialized
metadata under a fresh 24-hour expiry, replacing any previous value. -/
def setSession (s : St) (sid : String) (m : UploadMetadata) : St :=
  { s with uploadSessions :=
      (sid, m, s.now + UPLOAD_EXPIRATION_SECS) ::
        s.uploadSessions.filter (fun p => p.1 ≠ sid) }

/-- Redis `DEL upload:{user}:{sid}`. -/
def delSession (s : St) (sid : String) : St :=
  { s with uploadSessions := s.uploadSessions.filter (fun p => p.1 ≠ sid) }

/-- Whether the `user_uploading:{user}` lock key currently exists. -/
def uploadLocked (s : St) : Bool :=
  match s.uploadLockExpiry with
  | some e => decide (s.now < e)
  | none => false

/-- Whether the `user_downloading:{user}` lock key currently exists. -/
def downloadLocked (s : St) : Bool :=
  match s.downloadLockExpiry with
  | some e => decide (s.now < e)
  | none => false

/-- Passage of time between requests: only the clock moves. -/
def atTime (t : Int) (s : St) : St := { s with now := t }

/-- Request body of `POST /api/files/upload/init`
(struct `InitUploadRequest`). -/
structure InitUploadRequest where
  filename : String
  file_size : Int
  total_chunks : Nat
  expected_hash : Option String

/-- Embedding of `init_upload` from `src/src/handlers/files.rs`.  The fresh
`Uuid::new_v4()` upload id is passed as `sid`.  Checks the per-user upload
lock, validates `file_size` and `total_chunks`, runs the read-only
`SELECT .. FOR UPDATE` quota pre-check, then creates the session record and
sets the lock, both with 24-hour expiry. -/
def init_upload (sid : String) (req : InitUploadRequest) (s : St) :
    Except AppError String × St :=
  if uploadLocked s then
    (.error (.Validation "upload already in progress"), s)
  else if req.file_size ≤ 0 then
    (.error (.Validation "File size must be positive"), s)
  else if req.file_size > MAX_FILE_SIZE then
    (.error (.Validation "File size exceeds maximum allowed"), s)
  else if req.total_chunks = 0 then
    (.error (.Validation "total_chunks must be greater than 0"), s)
  else
    let available := s.storage_quota_bytes - s.storage_used_bytes
    if req.file_size > available then
      (.error (.Validation "Insufficient storage quota"), s)
    else
      let m : UploadMetadata :=
        { upload_session_id := sid
          filename := req.filename
          total_size := req.file_size
          total_chunks := req.total_chunks
          chunks_received_count := 0
          expected_hash := req.expected_hash
          created_at := s.now
          chunks_written_bytes := 0
          chunk_nonces := List.replicate req.total_chunks (List.replicate 12 0) }
      let s1 := setSession s sid m
      let s2 := { s1 with uploadLockExpiry := some (s1.now + UPLOAD_EXPIRATION_SECS) }
      (.ok sid, s2)

/-- Embedding of `upload_chunk` from `src/src/handlers/files.rs` after
multipart parsing: `sid`, `chunk_idx` and `data` are the parsed fields,
`dekBytes` is `session.dek`, and `nonce` is the fresh nonce drawn inside
`aes::encrypt`.  Loads the session from the KV store (absence surfaces as
the bincode decode failure of the missing value), validates the chunk
index, checks the session DEK length, encrypts the chunk, overwrites the
staged file, and writes the updated metadata back with a fresh 24-hour
expiry.  Returns the new `chunks_received_count`. -/
def upload_chunk (dekBytes : Bytes) (sid : String) (chunk_idx : Nat)
    (data : Bytes) (nonce : Bytes) (s : St) : Except AppError Nat × St :=
  match lookupSession s sid with
  | none => (.error (.Internal "Bincode decode failed"), s)
  | some m =>
    if chunk_idx ≥ m.total_chunks then
      (.error (.Validation "Invalid chunk index"), s)
    else if dekBytes.length ≠ 32 then
      (.error (.Encryption "Invalid DEK in session"), s)
    else
      let (chunk_encrypted, actual_nonce) := aes.encrypt dekBytes data nonce
      let newStaged :=
        chunkPath sid chunk_idx :: s.staged.filter (fun f => f ≠ chunkPath sid chunk_idx)
      let s1 := { s with staged := newStaged }
      let m1 := { m with
        chunk_nonces := m.chunk_nonces.set chunk_idx actual_nonce,
        chunks_received_count := m.chunks_received_count + 1,
        chunks_written_bytes := m.chunks_written_bytes + (chunk_encrypted.length : Int) }
      let s2 := setSession s1 sid m1
      (.ok m1.chunks_received_count, s2)

/-- Embedding of `cleanup_failed_upload` from `src/src/handlers/files.rs`:
delete the staged chunk files for indices `0 .. chunks_received_count`
(batching only affects iteration grouping, not the set of deleted files),
then delete the upload-session KV key and the per-user lock key.  The quota
ledger is not touched. -/
def cleanup_failed_upload (sid : String) (m : UploadMetadata) (s : St) : St :=
  let newStaged :=
    (List.range m.chunks_received_count).foldl
      (fun acc i => acc.filter (fun f => f ≠ chunkPath sid i)) s.staged
  let s2 := delSession { s with staged := newStaged } sid
  { s2 with uploadLockExpiry := none }

/-- Chunk table built by the `for (idx, nonce) in metadata.chunk_nonces
.iter().enumerate()` loop of `finalize_upload`: one `ChunkInfo` per index,
naming the staged file by the deterministic scheme and recording
`CHUNK_SIZE` as the size hint. -/
def buildChunkTable (sid : String) (m : UploadMetadata) : List ChunkInfo :=
  (List.range m.chunk_nonces.length).map (fun idx =>
    { index := idx
      nonce := m.chunk_nonces.getD idx []
      filename := chunkFilename sid idx
      size_encrypted := CHUNK_SIZE })

/-- Embedding of `finalize_upload` from `src/src/handlers/files.rs`.
`dekBytes` is `session.dek`, `kek` the active KEK returned by
`get_active_kek` (its version is 1 here), `dek_nonce` the fresh nonce drawn
when wrapping the DEK, and `file_id` the fresh `Uuid::new_v4()`.  Loads the
session; on `chunks_received_count != total_chunks` runs cleanup and fails
with a Validation error.  Otherwise a transaction locks the user row,
re-checks the quota, debits `storage_used_bytes`, and inserts the `files`
row; the transaction commits atomically (error paths inside it roll back,
leaving quota and files untouched), after which the session key and lock
key are deleted. -/
def finalize_upload (dekBytes kek dek_nonce : Bytes) (file_id : Nat)
    (sid : String) (s : St) : Except AppError Nat × St :=
  match lookupSession s sid with
  | none => (.error (.Internal "Bincode decode failed"), s)
  | some m =>
    if m.chunks_received_count ≠ m.total_chunks then
      (.error (.Validation "Incomplete upload"), cleanup_failed_upload sid m s)
    else
      let available := s.storage_quota_bytes - s.storage_used_bytes
      if m.total_size > available then
        (.error (.Validation "Insufficient storage quota at finalization"),
          cleanup_failed_upload sid m s)
      else if dekBytes.length = 0 then
        (.error (.Encryption "User DEK not available in session"),
          cleanup_failed_upload sid m s)
      else
        let chunks_data := buildChunkTable sid m
        let (encrypted_dek, n) := aes.encrypt kek dekBytes dek_nonce
        let f : FileRec :=
          { id := file_id
            original_filename := m.filename
            total_chunks := m.total_chunks
            chunks_metadata := chunks_data
            encrypted_dek := encrypted_dek
            nonce := n
            dek_version := 1
            file_size := m.total_size
            checksum_sha256 := m.expected_hash
            is_deleted := false }
        let s1 := { s with
          storage_used_bytes := s.storage_used_bytes + m.total_size,
          files := f :: s.files }
        let s2 := delSession s1 sid
        (.ok file_id, { s2 with uploadLockExpiry := none })

/-- Embedding of `cancel_upload` from `src/src/handlers/files.rs`: load the
session (failing loudly when the KV key is missing) and run cleanup. -/
def cancel_upload (sid : String) (s : St) : Except AppError Unit × St :=
  match lookupSession s sid with
  | none => (.error (.Internal "Bincode decode failed"), s)
  | some m => (.ok (), cleanup_failed_upload sid m s)

/-- Embedding of `delete_file` from `src/src/handlers/files.rs`: look the
row up by id with no deleted-filter, 404 when absent, reject already
deleted files, otherwise soft-delete and release the quota with a floor at zero in
one transaction. -/
def delete_file (file_id : Nat) (s : St) : Except AppError Int × St :=
  match s.files.find? (fun f => f.id == file_id) with
  | none => (.error .NotFound, s)
  | some f =>
    if f.is_deleted then
      (.error (.Validation "File already deleted"), s)
    else
      (.ok f.file_size,
        { s with
          files := s.files.map (fun g =>
            if g.id == file_id then { g with is_deleted := true } else g)
          storage_used_bytes := max 0 (s.storage_used_bytes - f.file_size) })

/-- Embedding of `recalculate_user_quota` from `src/src/handlers/files.rs`:
assign to `storage_used_bytes` the sum of the sizes of the user's live
(non-deleted) files. -/
def recalculate_user_quota (s : St) : Except AppError Int × St :=
  let actual :=
    (s.files.filter (fun f => !f.is_deleted)).foldl (fun a f => a + f.file_size) 0
  (.ok actual, { s with storage_used_bytes := actual })

/-- Sweep of one scanned `upload:*` key inside `cleanup_expired_uploads`:
when the key is still live and `now - created_at > 86400`, remove every
staged chunk in `[0, total_chunks)`, delete the KV record, decrement the
user's `storage_used_bytes` by `total_size` with a floor at zero, and
delete the `user_uploading` lock. -/
def sweepOne (st : St) (entry : String × UploadMetadata × Int) : St :=
  let sid := entry.1
  let m := entry.2.1
  let exp := entry.2.2
  if st.now < exp ∧ st.now - m.created_at > 86400 then
    let newStaged :=
      (List.range m.total_chunks).foldl
        (fun acc i => acc.filter (fun f => f ≠ chunkPath sid i)) st.staged
    let s2 := delSession { st with staged := newStaged } sid
    { s2 with
      storage_used_bytes := max 0 (s2.storage_used_bytes - m.total_size),
      uploadLockExpiry := none }
  else st

/-- Embedding of `cleanup_expired_uploads` from `src/src/handlers/files.rs`:
the hourly sweeper SCANs the live `upload:*` keys and processes each as in
`sweepOne`. -/
def cleanup_expired_uploads (s : St) : St :=
  s.uploadSessions.foldl sweepOne s

/-- Embedding of `download_file` from `src/src/handlers/files.rs`.  Fails
when the `user_downloading` lock key exists; otherwise sets that lock with
a 1-hour expiry (no code path ever deletes it), then loads the file row
scoped by id and `is_deleted = false` (404 when absent), fetches the KEK of
the recorded version (passed as `kek`), unwraps the file DEK, and streams
the chunks.  The streamed body is represented by the ordered list of staged
chunk paths the pipeline reads. -/
def download_file (kek : Bytes) (file_id : Nat) (s : St) :
    Except AppError (List String) × St :=
  if downloadLocked s then
    (.error (.Validation "download already in progress"), s)
  else
    let s1 := { s with downloadLockExpiry := some (s.now + DOWNLOAD_EXPIRATION_SECS) }
    match s1.files.find? (fun f => f.id == file_id && !f.is_deleted) with
    | none => (.error .NotFound, s1)
    | some f =>
      match aes.decrypt kek f.encrypted_dek f.nonce with
      | .error e => (.error e, s1)
      | .ok dekPlain =>
        if dekPlain.length ≠ 32 then
          (.error (.Encryption "Invalid DEK size"), s1)
        else
          (.ok (f.chunks_metadata.map (fun c => upload_dir ++ "/" ++ c.filename)), s1)

/-- Fold of `upload_chunk` over a list of requests `(index, data, nonce)`;
`some` exactly when every request in the sequence is accepted. -/
def runChunks (dekBytes : Bytes) (sid : String) :
    List (Nat × Bytes × Bytes) → St → Option St
  | [], s => some s
  | (idx, data, nonce) :: rest, s =>
    match upload_chunk dekBytes sid idx data nonce s with
    | (.ok _, s') => runChunks dekBytes sid rest s'
    | (.error _, _) => none

/-! Concrete states used to evaluate the embedded handlers on explicit
inputs: a fresh single-user state, a fixed 32-byte session DEK and a fixed
12-byte nonce draw. -/

/-- Fresh state of a user with the given quota and nothing stored yet. -/
def st0 (quota : Int) : St :=
  { now := 0, storage_quota_bytes := quota, storage_used_bytes := 0,
    uploadSessions := [], uploadLockExpiry := none, downloadLockExpiry := none,
    files := [], staged := [] }

/-- Fixed 32-byte session DEK used in concrete runs. -/
def D32 : Bytes := List.replicate 32 1

/-- Fixed 12-byte nonce draw used in concrete runs. -/
def NZ : Bytes := List.replicate 12 2

/-- Concrete run, duplicate-chunk scenario: state after `init` of a
one-chunk upload "U". -/
def dupInit : St := (init_upload "U" ⟨"a.bin", 10, 1, none⟩ (st0 1000)).2

/-- Duplicate-chunk scenario: state after the first accepted upload of
chunk 0. -/
def dupOnce : St := (upload_chunk D32 "U" 0 [5] NZ dupInit).2

/-- Duplicate-chunk scenario: state after re-uploading chunk 0 a second
time. -/
def dupTwice : St := (upload_chunk D32 "U" 0 [5] NZ dupOnce).2

/-- Session record stored in `dupOnce`: one chunk of one received. -/
def dupOnceMeta : UploadMetadata :=
  { upload_session_id := "U", filename := "a.bin", total_size := 10,
    total_chunks := 1, chunks_received_count := 1, expected_hash := none,
    created_at := 0, chunks_written_bytes := 17,
    chunk_nonces := [NZ] }

/-! Concrete run for the quota ledger: a user with a 10-byte quota.
Upload session "U1" is initialized at time 0 and kept alive past the
24-hour mark by a chunk upload at 23 h (which refreshes the session key's
expiry but not the lock's), the lock expires at 24 h, a second upload "U2"
is then completed and finalized, the hourly sweeper reclaims the expired
"U1" and decrements `storage_used_bytes` although "U1" was never debited,
a third upload "U3" is completed and finalized into the freed headroom,
and finally the quota is recomputed from the live `files` rows. -/

/-- Quota trace: after `init` of "U1" (10 bytes, 1 chunk) at time 0. -/
def qt1 : St := (init_upload "U1" ⟨"a", 10, 1, none⟩ (st0 10)).2

/-- Quota trace: after uploading chunk 0 of "U1" at 23 h. -/
def qt2 : St := (upload_chunk D32 "U1" 0 [5] NZ (atTime 82800 qt1)).2

/-- Quota trace: after `init` of "U2" at 24.5 h (the "U1" lock has
expired). -/
def qt3 : St := (init_upload "U2" ⟨"b", 10, 1, none⟩ (atTime 88200 qt2)).2

/-- Quota trace: after uploading chunk 0 of "U2". -/
def qt4 : St := (upload_chunk D32 "U2" 0 [5] NZ qt3).2

/-- Quota trace: after finalizing "U2" (quota debited to 10/10). -/
def qt5 : St := (finalize_upload D32 D32 NZ 100 "U2" qt4).2

/-- Quota trace: after the sweeper runs at 25.5 h and reclaims the expired
"U1", decrementing `storage_used_bytes` by a size that was never
debited. -/
def qt6 : St := cleanup_expired_uploads (atTime 91800 qt5)

/-- Quota trace: after `init` of "U3" into the spuriously freed
headroom. -/
def qt7 : St := (init_upload "U3" ⟨"c", 10, 1, none⟩ qt6).2

/-- Quota trace: after uploading chunk 0 of "U3". -/
def qt8 : St := (upload_chunk D32 "U3" 0 [5] NZ qt7).2

/-- Quota trace: after finalizing "U3". -/
def qt9 : St := (finalize_upload D32 D32 NZ 101 "U3" qt8).2

/-- Quota trace: after `recalculate_user_quota` rebuilds
`storage_used_bytes` from the live files. -/
def qt10 : St := (recalculate_user_quota qt9).2

/-- Incomplete-finalize scenario: a session for "U" with one of two chunks
received, its staged file on disk, and the upload lock held. -/
def incompleteSt : St :=
  { st0 1000 with
    uploadSessions := [("U",
      { upload_session_id := "U", filename := "a.bin", total_size := 10,
        total_chunks := 2, chunks_received_count := 1, expected_hash := none,
        created_at := 0, chunks_written_bytes := 17,
        chunk_nonces := [NZ, List.replicate 12 0] }, 86400)],
    uploadLockExpiry := some 86400,
    staged := [chunkPath "U" 0] }

/-- Metadata of the session stored in `incompleteSt`. -/
def incompleteMeta : UploadMetadata :=
  { upload_session_id := "U", filename := "a.bin", total_size := 10,
    total_chunks := 2, chunks_received_count := 1, expected_hash := none,
    created_at := 0, chunks_written_bytes := 17,
    chunk_nonces := [NZ, List.replicate 12 0] }

/-- Complete-session scenario: a session for "U" with its single chunk
received, ready to finalize. -/
def completeSt : St :=
  { st0 1000 with
    uploadSessions := [("U",
      { upload_session_id := "U", filename := "a.bin", total_size := 10,
        total_chunks := 1, chunks_received_count := 1, expected_hash := none,
        created_at := 0, chunks_written_bytes := 17,
        chunk_nonces := [NZ] }, 86400)],
    uploadLockExpiry := some 86400,
    staged := [chunkPath "U" 0] }

/-- An already-soft-deleted file row with id 9 and size 10. -/
def deletedFileRec : FileRec :=
  { id := 9, original_filename := "a.bin", total_chunks := 1,
    chunks_metadata := [], encrypted_dek := [], nonce := NZ,
    dek_version := 1, file_size := 10, checksum_sha256 := none,
    is_deleted := true }

/-- State holding one already-soft-deleted file with id 9 and size 10. -/
def deletedFileSt : St :=
  { st0 1000 with storage_used_bytes := 0, files := [deletedFileRec] }

end files

namespace dek

/-- Concrete 32-byte DEK for the wrap/unwrap round trip. -/
def rtDek : Bytes := List.replicate 32 5

/-- Concrete nonce draw for the wrap/unwrap round trip. -/
def rtNonce : Bytes := List.replicate 12 7

/-- Concrete wrapped DEK: `rtDek` wrapped under password "pw" and salt
"c2FsdA". -/
def rtWrapped : Bytes :=
  (aes.encrypt (derive_key_from_password "pw" "c2FsdA") rtDek rtNonce).1 ++ rtNonce

end dek

/-! Helper lemmas. -/

/-- Decrypting with the same key and nonce recovers the plaintext of the
symbolic AEAD. -/
theorem aes_decrypt_encrypt (key pt nonce : Bytes) :
    aes.decrypt key (aes.encrypt key pt nonce).1 nonce = .ok pt := by
  unfold aes.encrypt aes.decrypt
  have htag : (aes.aeadTag key nonce pt).length = 16 := by
    simp [aes.aeadTag]
  have hl : (pt ++ aes.aeadTag key nonce pt).length = pt.length + 16 := by
    simp [htag]
  rw [hl]
  have h1 : ¬ pt.length + 16 < 16 := by omega
  rw [if_neg h1]
  have h2 : pt.length + 16 - 16 = pt.length := by omega
  rw [h2, List.take_left, List.drop_left, if_pos rfl]

/-- Restatement of `aes_decrypt_encrypt` with the ciphertext spelled
out. -/
theorem aes_decrypt_append_tag (key pt nonce : Bytes) :
    aes.decrypt key (pt ++ aes.aeadTag key nonce pt) nonce = .ok pt :=
  aes_decrypt_encrypt key pt nonce

/-- Any failure of the symbolic AEAD decryption is an
`AppError.Encryption` value. -/
theorem aes_decrypt_error (key ct nonce : Bytes) (e : AppError)
    (h : aes.decrypt key ct nonce = .error e) : ∃ msg, e = .Encryption msg := by
  unfold aes.decrypt at h
  split at h
  · exact ⟨_, (Except.error.inj h).symm⟩
  · split at h
    · exact absurd h (by simp)
    · exact ⟨_, (Except.error.inj h).symm⟩

open files in
/-- Writing a session record makes it immediately readable. -/
theorem lookupSession_setSession (s : St) (sid : String) (m : UploadMetadata) :
    lookupSession (setSession s sid m) sid = some m := by
  unfold lookupSession setSession
  dsimp only
  rw [List.find?_cons_of_pos _ (by simp)]
  dsimp only
  rw [if_pos (by unfold UPLOAD_EXPIRATION_SECS; omega)]

open files in
/-- Deleting a session key makes it unreadable. -/
theorem lookupSession_delSession (s : St) (sid : String) :
    lookupSession (delSession s sid) sid = none := by
  unfold lookupSession delSession
  dsimp only
  have hf : List.find? (fun p => p.1 == sid)
      (s.uploadSessions.filter (fun p => p.1 ≠ sid)) = none := by
    rw [List.find?_eq_none]
    intro x hx
    rw [List.mem_filter] at hx
    simpa using of_decide_eq_true hx.2
  rw [hf]

open files in
/-- Session lookup ignores the upload-lock field. -/
theorem lookupSession_set_lock (s : St) (e : Option Int) (sid : String) :
    lookupSession { s with uploadLockExpiry := e } sid = lookupSession s sid := rfl

open files in
/-- Session lookup ignores the staged-files field. -/
theorem lookupSession_set_staged (s : St) (l : List String) (sid : String) :
    lookupSession { s with staged := l } sid = lookupSession s sid := rfl

open files in
/-- Characterization of an accepted `upload_chunk`: the index was in
range, and the stored session record has the same `total_chunks` and a
`chunks_received_count` bumped by exactly one — whether or not the index
was already received. -/
theorem upload_chunk_ok (dekBytes : Bytes) (sid : String) (idx : Nat)
    (data nonce : Bytes) (s s' : St) (k : Nat) (m : UploadMetadata)
    (hm : lookupSession s sid = some m)
    (h : upload_chunk dekBytes sid idx data nonce s = (.ok k, s')) :
    idx < m.total_chunks ∧
    ∃ m', lookupSession s' sid = some m' ∧
      m'.total_chunks = m.total_chunks ∧
      m'.chunks_received_count = m.chunks_received_count + 1 := by
  unfold upload_chunk at h
  rw [hm] at h
  simp only [aes.encrypt] at h
  split at h
  · exact absurd h (by simp)
  · split at h
    · exact absurd h (by simp)
    · simp only [Prod.mk.injEq] at h
      obtain ⟨-, hs⟩ := h
      subst hs
      exact ⟨by omega, _, lookupSession_setSession _ _ _, rfl, rfl⟩

open files in
/-- Characterization of an accepted `init_upload`: the freshly stored
session record has zero received chunks and the requested chunk count. -/
theorem init_upload_ok (sid : String) (req : InitUploadRequest) (s : St)
    (out : String) (s1 : St)
    (h : init_upload sid req s = (.ok out, s1)) :
    ∃ m0, lookupSession s1 sid = some m0 ∧ m0.chunks_received_count = 0 ∧
      m0.total_chunks = req.total_chunks := by
  unfold init_upload at h
  split at h
  · exact absurd h (by simp)
  · split at h
    · exact absurd h (by simp)
    · split at h
      · exact absurd h (by simp)
      · split at h
        · exact absurd h (by simp)
        · dsimp only at h
          split at h
          · exact absurd h (by simp)
          · simp only [Prod.mk.injEq] at h
            obtain ⟨-, hs⟩ := h
            subst hs
            exact ⟨_, lookupSession_setSession s sid _, rfl, rfl⟩

open files in
/-- Running a sequence of accepted chunk uploads bumps the stored
`chunks_received_count` by the length of the sequence, preserves
`total_chunks`, and every index in the sequence was in range. -/
theorem runChunks_ok (dekBytes : Bytes) (sid : String) :
    ∀ (reqs : List (Nat × Bytes × Bytes)) (s s' : St) (m : UploadMetadata),
      lookupSession s sid = some m →
      runChunks dekBytes sid reqs s = some s' →
      ∃ m', lookupSession s' sid = some m' ∧
        m'.total_chunks = m.total_chunks ∧
        m'.chunks_received_count = m.chunks_received_count + reqs.length ∧
        ∀ r ∈ reqs, r.1 < m.total_chunks := by
  intro reqs
  induction reqs with
  | nil =>
    intro s s' m hm hrun
    unfold runChunks at hrun
    obtain rfl := Option.some.inj hrun
    exact ⟨m, hm, rfl, by simp, by simp⟩
  | cons r rest ih =>
    intro s s' m hm hrun
    obtain ⟨idx, data, nonce⟩ := r
    unfold runChunks at hrun
    cases hres : upload_chunk dekBytes sid idx data nonce s with
    | mk r1 st1 =>
      rw [hres] at hrun
      cases r1 with
      | error e => simp at hrun
      | ok k =>
        dsimp only at hrun
        obtain ⟨hlt, m1, hm1, htot, hcnt⟩ := upload_chunk_ok dekBytes sid idx
          data nonce s st1 k m hm hres
        obtain ⟨m', h1, h2, h3, h4⟩ := ih st1 s' m1 hm1 hrun
        refine ⟨m', h1, by rw [h2, htot], by rw [h3, hcnt]; simp; omega, ?_⟩
        intro q hq
        rcases List.mem_cons.mp hq with hq | hq
        · subst hq; exact hlt
        · rw [← htot]; exact h4 q hq

/-- Claim C6: for every password, valid salt, 32-byte DEK and nonce draw,
unwrapping the wrapped DEK produced by `create_user_dek` with the same
salt and password returns the original DEK. -/
theorem c6_dek_roundtrip (pw : String) (dekBytes : Bytes) (salt : String)
    (nonce w : Bytes)
    (hdek : dekBytes.length = 32) (hnonce : nonce.length = 12)
    (h : dek.create_user_dek pw dekBytes salt nonce = .ok (w, salt)) :
    dek.decrypt_user_dek w salt pw = .ok dekBytes := by
  unfold dek.create_user_dek at h
  cases hs : dek.saltOk salt with
  | false => rw [hs] at h; simp at h
  | true =>
    rw [hs] at h
    simp only [Bool.true_eq_false, if_false, aes.encrypt, Except.ok.injEq,
      Prod.mk.injEq] at h
    obtain ⟨hw, -⟩ := h
    subst hw
    set key := dek.derive_key_from_password pw salt with hkey
    have htag : (aes.aeadTag key nonce dekBytes).length = 16 := by
      simp [aes.aeadTag]
    have hct : (dekBytes ++ aes.aeadTag key nonce dekBytes).length = 48 := by
      rw [List.length_append, htag, hdek]
    have hw60 : ((dekBytes ++ aes.aeadTag key nonce dekBytes) ++ nonce).length = 60 := by
      rw [List.length_append, hct, hnonce]
    unfold dek.decrypt_user_dek
    rw [hs]
    simp only [Bool.true_eq_false, if_false, hw60]
    have h60 : ¬ (60 : Nat) < 60 := by omega
    rw [if_neg h60]
    have h48 : (60 : Nat) - 12 = 48 := by omega
    rw [h48, ← hct, List.take_left, List.drop_left, ← hkey]
    rw [aes_decrypt_append_tag key dekBytes nonce]
    have h32 : ¬ dekBytes.length < aes.KEY_SIZE := by
      rw [hdek]; simp [aes.KEY_SIZE]
    dsimp only
    rw [if_neg h32]
    rw [show aes.KEY_SIZE = dekBytes.length from by rw [hdek]; rfl]
    rw [List.take_length]

set_option maxRecDepth 100000 in
/-- Witness for C6 at a concrete password, salt, DEK and nonce. -/
theorem c6_dek_roundtrip_witness :
    dek.decrypt_user_dek dek.rtWrapped "c2FsdA" "pw" = .ok dek.rtDek :=
  c6_dek_roundtrip "pw" dek.rtDek "c2FsdA" dek.rtNonce dek.rtWrapped
    (by decide) (by decide) (by decide)

/-- Counterexample for C8 as stated: a malformed wrapped DEK makes
`decrypt_user_dek` fail with an `AppError::Encryption` value, and
`AppError::Encryption` is mapped to HTTP 500, not to 401
(`AppError::Authentication` is the 401 kind). -/
theorem c8_counterexample :
    dek.decrypt_user_dek [] "c2FsdA" "pw" =
      .error (.Encryption "Invalid encrypted DEK size") ∧
    statusOf (.Encryption "Invalid encrypted DEK size") = 500 ∧
    ¬ statusOf (.Encryption "Invalid encrypted DEK size") = 401 := by
  decide

/-- Claim C8 as amended: whenever `decrypt_user_dek` fails — wrong
password, tag verification failure, or malformed wrapped input — the error
is an `AppError::Encryption` value, which the HTTP edge maps to status
500. -/
theorem c8_unwrap_error_kind (w : Bytes) (salt pw : String) (e : AppError)
    (h : dek.decrypt_user_dek w salt pw = .error e) :
    (∃ msg, e = AppError.Encryption msg) ∧ statusOf e = 500 := by
  have hk : ∃ msg, e = AppError.Encryption msg := by
    unfold dek.decrypt_user_dek at h
    split at h
    · exact ⟨_, (Except.error.inj h).symm⟩
    · split at h
      · exact ⟨_, (Except.error.inj h).symm⟩
      · split at h
        · next e' heq =>
            obtain ⟨msg, rfl⟩ := aes_decrypt_error _ _ _ _ heq
            exact ⟨msg, (Except.error.inj h).symm⟩
        · split at h
          · exact ⟨_, (Except.error.inj h).symm⟩
          · exact absurd h (by simp)
  obtain ⟨msg, rfl⟩ := hk
  exact ⟨⟨msg, rfl⟩, rfl⟩

set_option maxRecDepth 100000 in
/-- Witness for C8 (amended) at a concrete wrong-password unwrap: the DEK
wrapped under "pw" fails to unwrap under "wrongpw" with an Encryption
error mapped to 500. -/
theorem c8_unwrap_error_kind_witness :
    (∃ msg, AppError.Encryption "Decryption failed" = AppError.Encryption msg) ∧
    statusOf (AppError.Encryption "Decryption failed") = 500 :=
  c8_unwrap_error_kind dek.rtWrapped "c2FsdA" "wrongpw" _ (by decide)

open files in
set_option maxRecDepth 100000 in
/-- Counterexample for C1 as stated: after `init` of a one-chunk upload,
chunk 0 is accepted twice (`upload_chunk` has no duplicate-index guard),
and the stored session then has `chunks_received_count = 2` while
`total_chunks = 1`, so a sequence of accepted chunk uploads with a
repeated `chunk_index` does drive `chunks_received` above
`total_chunks`. -/
theorem c1_counterexample :
    (init_upload "U" ⟨"a.bin", 10, 1, none⟩ (st0 1000)).1 = .ok "U" ∧
    (upload_chunk D32 "U" 0 [5] NZ dupInit).1 = .ok 1 ∧
    (upload_chunk D32 "U" 0 [5] NZ dupOnce).1 = .ok 2 ∧
    (lookupSession dupTwice "U").map
      (fun m => decide (m.chunks_received_count ≤ m.total_chunks)) = some false := by
  decide

open files in
/-- Claim C1 as amended: after an accepted `init` and any sequence of
accepted chunk uploads whose chunk indices are pairwise distinct,
the stored session satisfies
`0 ≤ chunks_received_count ≤ total_chunks` (the lower bound is inherent
to the `usize` counter); an accepted duplicate of an already-received
index increments the counter again and can exceed the bound. -/
theorem c1_distinct_chunks_invariant (dekBytes : Bytes) (sid out : String)
    (req : InitUploadRequest) (s0 s1 s' : St)
    (reqs : List (Nat × Bytes × Bytes))
    (hinit : init_upload sid req s0 = (.ok out, s1))
    (hnodup : (reqs.map (fun r => r.1)).Nodup)
    (hrun : runChunks dekBytes sid reqs s1 = some s') :
    ∀ m', lookupSession s' sid = some m' →
      m'.chunks_received_count ≤ m'.total_chunks := by
  obtain ⟨m0, hm0, hcnt0, -⟩ := init_upload_ok sid req s0 out s1 hinit
  obtain ⟨m1, hm1, htot, hcnt, hall⟩ := runChunks_ok dekBytes sid reqs s1 s' m0 hm0 hrun
  intro m' hm'
  obtain rfl : m' = m1 := Option.some.inj (hm'.symm.trans hm1)
  have hnd : (reqs.map (fun r => r.1)).toFinset.card =
      (reqs.map (fun r => r.1)).length :=
    List.toFinset_card_of_nodup hnodup
  have hsub : (reqs.map (fun r => r.1)).toFinset ⊆ Finset.range m0.total_chunks := by
    intro x hx
    rw [List.mem_toFinset] at hx
    obtain ⟨q, hq, rfl⟩ := List.mem_map.mp hx
    exact Finset.mem_range.mpr (hall q hq)
  have hcard := Finset.card_le_card hsub
  rw [hnd, Finset.card_range, List.length_map] at hcard
  omega

open files in
set_option maxRecDepth 100000 in
/-- Witness for C1 (amended) at a concrete one-chunk upload with the
single distinct index 0. -/
theorem c1_distinct_chunks_invariant_witness :
    dupOnceMeta.chunks_received_count ≤ dupOnceMeta.total_chunks :=
  c1_distinct_chunks_invariant D32 "U" "U" ⟨"a.bin", 10, 1, none⟩
    (st0 1000) dupInit dupOnce [(0, [5], NZ)]
    (by decide) (by decide) (by decide) dupOnceMeta (by decide)

open files in
set_option maxRecDepth 1000000 in
/-- Failing run for C3: with a 10-byte quota, upload "U1" (10 bytes) is
initialized at time 0 and kept alive past 24 h by a chunk upload at 23 h
(which refreshes the session key but not the lock), upload "U2" (10
bytes) is finalized once the lock expires, the sweeper then reclaims the
expired "U1" and decrements `storage_used_bytes` by 10 although "U1" was
never debited, upload "U3" (10 bytes) is finalized into the spuriously
freed headroom, and `recalculate_user_quota` rebuilds
`storage_used_bytes = 20 > storage_quota_bytes = 10`, violating
`used_bytes ≤ quota_bytes`. -/
theorem c3_sweeper_quota_violation :
    (files.finalize_upload D32 D32 NZ 100 "U2" qt4).1 = .ok 100 ∧
    (files.finalize_upload D32 D32 NZ 101 "U3" qt8).1 = .ok 101 ∧
    qt5.storage_used_bytes = 10 ∧
    qt6.storage_used_bytes = 0 ∧
    qt10.storage_used_bytes = 20 ∧
    qt10.storage_quota_bytes = 10 ∧
    qt10.storage_quota_bytes < qt10.storage_used_bytes := by
  decide

open files in
/-- Claim C7: with no upload lock held, `init_upload` validates its size
inputs exactly at the stated boundaries: `file_size ≤ 0` is rejected with
a Validation error, `file_size` above 50 GiB is rejected, `total_chunks
= 0` is rejected, and `file_size` of exactly 50 GiB is accepted when the
quota headroom admits it. -/
theorem c7_init_boundaries (sid fname : String) (eh : Option String)
    (s : St) (tc : Nat) (fs : Int)
    (hlock : uploadLocked s = false) :
    (fs ≤ 0 →
      (init_upload sid ⟨fname, fs, tc, eh⟩ s).1 =
        .error (.Validation "File size must be positive")) ∧
    (fs > MAX_FILE_SIZE →
      (init_upload sid ⟨fname, fs, tc, eh⟩ s).1 =
        .error (.Validation "File size exceeds maximum allowed")) ∧
    (tc = 0 → 0 < fs → fs ≤ MAX_FILE_SIZE →
      (init_upload sid ⟨fname, fs, tc, eh⟩ s).1 =
        .error (.Validation "total_chunks must be greater than 0")) ∧
    (tc ≠ 0 → MAX_FILE_SIZE ≤ s.storage_quota_bytes - s.storage_used_bytes →
      (init_upload sid ⟨fname, MAX_FILE_SIZE, tc, eh⟩ s).1 = .ok sid) := by
  have hmaxpos : (0 : Int) < MAX_FILE_SIZE := by unfold MAX_FILE_SIZE; omega
  refine ⟨?_, ?_, ?_, ?_⟩
  · intro h
    unfold init_upload
    rw [hlock]
    simp only [Bool.false_eq_true, if_false, if_pos h]
  · intro h
    have h0 : ¬ fs ≤ 0 := by omega
    unfold init_upload
    rw [hlock]
    simp only [Bool.false_eq_true, if_false]
    rw [if_neg h0, if_pos h]
  · intro htc h0 hmax
    have h0' : ¬ fs ≤ 0 := by omega
    have hmax' : ¬ fs > MAX_FILE_SIZE := by omega
    unfold init_upload
    rw [hlock]
    simp only [Bool.false_eq_true, if_false]
    rw [if_neg h0', if_neg hmax', if_pos htc]
  · intro htc hquota
    have h0' : ¬ MAX_FILE_SIZE ≤ (0 : Int) := by omega
    have hmax' : ¬ MAX_FILE_SIZE > MAX_FILE_SIZE := by omega
    have hq : ¬ MAX_FILE_SIZE > s.storage_quota_bytes - s.storage_used_bytes := by
      omega
    unfold init_upload
    rw [hlock]
    simp only [Bool.false_eq_true, if_false]
    rw [if_neg h0', if_neg hmax', if_neg htc]
    rw [if_neg hq]

open files in
set_option maxRecDepth 100000 in
/-- Witness for C7 at each boundary: size 0 rejected, 50 GiB + 1 rejected,
zero chunks rejected, exactly 50 GiB accepted against a 50 GiB quota. -/
theorem c7_init_boundaries_witness :
    (init_upload "U" ⟨"a", 0, 1, none⟩ (st0 MAX_FILE_SIZE)).1 =
      .error (.Validation "File size must be positive") ∧
    (init_upload "U" ⟨"a", MAX_FILE_SIZE + 1, 1, none⟩ (st0 MAX_FILE_SIZE)).1 =
      .error (.Validation "File size exceeds maximum allowed") ∧
    (init_upload "U" ⟨"a", 5, 0, none⟩ (st0 MAX_FILE_SIZE)).1 =
      .error (.Validation "total_chunks must be greater than 0") ∧
    (init_upload "U" ⟨"a", MAX_FILE_SIZE, 1, none⟩ (st0 MAX_FILE_SIZE)).1 = .ok "U" := by
  have h1 := c7_init_boundaries "U" "a" none (st0 MAX_FILE_SIZE) 1 0 (by decide)
  have h2 := c7_init_boundaries "U" "a" none (st0 MAX_FILE_SIZE) 1
    (MAX_FILE_SIZE + 1) (by decide)
  have h3 := c7_init_boundaries "U" "a" none (st0 MAX_FILE_SIZE) 0 5 (by decide)
  have h4 := c7_init_boundaries "U" "a" none (st0 MAX_FILE_SIZE) 1 1 (by decide)
  exact ⟨h1.1 (by decide), h2.2.1 (by decide),
    h3.2.2.1 rfl (by decide) (by decide), h4.2.2.2 (by decide) (by decide)⟩

open files in
/-- Claim C9: deleting a file that is already soft-deleted fails with the
Validation error "File already deleted" and leaves the whole state — in
particular the user's `storage_used_bytes` — unchanged. -/
theorem c9_double_delete_rejected (file_id : Nat) (s : St) (f : FileRec)
    (hf : s.files.find? (fun g => g.id == file_id) = some f)
    (hd : f.is_deleted = true) :
    delete_file file_id s = (.error (.Validation "File already deleted"), s) := by
  unfold delete_file
  rw [hf]
  dsimp only
  rw [hd]
  simp

open files in
/-- Witness for C9 at a concrete state holding one soft-deleted file. -/
theorem c9_double_delete_rejected_witness :
    delete_file 9 deletedFileSt =
      (.error (.Validation "File already deleted"), deletedFileSt) :=
  c9_double_delete_rejected 9 deletedFileSt deletedFileRec (by decide) (by decide)

open files in
/-- Claim C10: when the `user_downloading` lock key exists, every download
request fails with a Validation error and changes nothing; when it does
not, `download_file` sets the lock with a 1-hour expiry before looking the
file up and never deletes it on any path (the post-state carries the lock
on every outcome), so even a request for a nonexistent or deleted file —
which returns 404 — leaves the lock set. -/
theorem c10_download_lock (kek : Bytes) (file_id : Nat) (s : St) :
    (downloadLocked s = true →
      download_file kek file_id s =
        (.error (.Validation "download already in progress"), s)) ∧
    (downloadLocked s = false →
      (download_file kek file_id s).2.downloadLockExpiry =
        some (s.now + DOWNLOAD_EXPIRATION_SECS) ∧
      (s.files.find? (fun f => f.id == file_id && !f.is_deleted) = none →
        (download_file kek file_id s).1 = .error .NotFound)) := by
  constructor
  · intro h
    unfold download_file
    rw [h]
    simp
  · intro h
    unfold download_file
    rw [h]
    simp only [Bool.false_eq_true, if_false]
    constructor
    · cases hf : s.files.find? (fun f => f.id == file_id && !f.is_deleted) with
      | none => rfl
      | some f =>
        dsimp only
        cases hd : aes.decrypt kek f.encrypted_dek f.nonce with
        | error e => rfl
        | ok dp =>
          dsimp only
          by_cases hl : dp.length ≠ 32
          · rw [if_pos hl]
          · rw [if_neg hl]
    · intro hnone
      rw [hnone]

open files in
/-- Witness for C10: a held lock rejects the request unchanged; with no
lock, a download of a nonexistent file returns 404 yet leaves the lock
set for an hour. -/
theorem c10_download_lock_witness :
    download_file D32 9 { st0 1000 with downloadLockExpiry := some 10 } =
      (.error (.Validation "download already in progress"),
        { st0 1000 with downloadLockExpiry := some 10 }) ∧
    (download_file D32 9 (st0 1000)).2.downloadLockExpiry =
      some ((st0 1000).now + DOWNLOAD_EXPIRATION_SECS) ∧
    (download_file D32 9 (st0 1000)).1 = .error .NotFound := by
  refine ⟨(c10_download_lock D32 9 _).1 (by decide), ?_, ?_⟩
  · exact ((c10_download_lock D32 9 (st0 1000)).2 (by decide)).1
  · exact ((c10_download_lock D32 9 (st0 1000)).2 (by decide)).2 (by decide)

/-- Membership after repeatedly filtering a list: an element survives the
fold exactly when it was present and passes every filter. -/
theorem mem_foldl_filter {α β : Type} (p : β → α → Bool) :
    ∀ (l : List β) (L : List α) (x : α),
      (x ∈ l.foldl (fun acc i => acc.filter (p i)) L) ↔
        (x ∈ L ∧ ∀ i ∈ l, p i x = true) := by
  intro l
  induction l with
  | nil => intro L x; simp
  | cons b bs ih =>
    intro L x
    rw [List.foldl_cons, ih, List.mem_filter]
    constructor
    · rintro ⟨⟨hL, hb⟩, hall⟩
      refine ⟨hL, ?_⟩
      intro i hi
      rcases List.mem_cons.mp hi with rfl | hi
      · exact hb
      · exact hall i hi
    · rintro ⟨hL, hall⟩
      exact ⟨⟨hL, hall b (List.mem_cons_self b bs)⟩,
        fun i hi => hall i (List.mem_cons_of_mem b hi)⟩

open files in
/-- Cleanup after a failed upload leaves the quota ledger and the `files`
table untouched. -/
theorem cleanup_preserves_ledger (sid : String) (m : UploadMetadata) (s : St) :
    (cleanup_failed_upload sid m s).storage_used_bytes = s.storage_used_bytes ∧
    (cleanup_failed_upload sid m s).files = s.files :=
  ⟨rfl, rfl⟩

open files in
/-- Claim C2: `finalize_upload` commits the quota debit and the `files`
insert atomically — when it succeeds the post-state shows both the
incremented `storage_used_bytes` and the inserted row, and when it fails
on any path the post-state shows neither (the transaction rolled back;
only staging files and KV keys may have been cleaned up). -/
theorem c2_finalize_atomic (dekBytes kek dn : Bytes) (fid : Nat)
    (sid : String) (s : St) (r : Except AppError Nat) (s' : St)
    (h : finalize_upload dekBytes kek dn fid sid s = (r, s')) :
    ((∃ k, r = .ok k) →
      ∃ m, lookupSession s sid = some m ∧
        s'.storage_used_bytes = s.storage_used_bytes + m.total_size ∧
        ∃ f, f ∈ s'.files ∧ f.id = fid ∧ f.file_size = m.total_size) ∧
    ((∃ e, r = .error e) →
      s'.storage_used_bytes = s.storage_used_bytes ∧ s'.files = s.files) := by
  unfold finalize_upload at h
  cases hm : lookupSession s sid with
  | none =>
    rw [hm] at h
    injection h with h1 h2
    subst h1
    subst h2
    constructor
    · rintro ⟨k, hk⟩
      exact absurd hk (by simp)
    · intro
      exact ⟨rfl, rfl⟩
  | some m =>
    rw [hm] at h
    simp only [aes.encrypt] at h
    split at h
    · injection h with h1 h2
      subst h1
      subst h2
      constructor
      · rintro ⟨k, hk⟩
        exact absurd hk (by simp)
      · intro
        exact cleanup_preserves_ledger sid m s
    · split at h
      · injection h with h1 h2
        subst h1
        subst h2
        constructor
        · rintro ⟨k, hk⟩
          exact absurd hk (by simp)
        · intro
          exact cleanup_preserves_ledger sid m s
      · split at h
        · injection h with h1 h2
          subst h1
          subst h2
          constructor
          · rintro ⟨k, hk⟩
            exact absurd hk (by simp)
          · intro
            exact cleanup_preserves_ledger sid m s
        · injection h with h1 h2
          subst h1
          subst h2
          constructor
          · intro
            exact ⟨m, rfl, rfl, _, List.mem_cons_self _ _, rfl, rfl⟩
          · rintro ⟨e, he⟩
            exact absurd he (by simp)

open files in
set_option maxRecDepth 100000 in
/-- Witness for C2: finalizing a concrete complete one-chunk session
debits the user by the session's size and inserts the matching row. -/
theorem c2_finalize_atomic_witness :
    ∃ m, lookupSession completeSt "U" = some m ∧
      (finalize_upload D32 D32 NZ 7 "U" completeSt).2.storage_used_bytes =
        completeSt.storage_used_bytes + m.total_size ∧
      ∃ f, f ∈ (finalize_upload D32 D32 NZ 7 "U" completeSt).2.files ∧
        f.id = 7 ∧ f.file_size = m.total_size :=
  (c2_finalize_atomic D32 D32 NZ 7 "U" completeSt _ _ rfl).1 ⟨7, by decide⟩

open files in
/-- Claim C4: finalizing a session whose `chunks_received_count` differs
from `total_chunks` fails with the Validation error "Incomplete upload",
and the cleanup it runs first deletes the staged chunk files for indices
`0 .. chunks_received_count`, deletes the upload-session KV key and the
per-user upload lock key, and leaves `storage_used_bytes` unchanged. -/
theorem c4_incomplete_finalize (dekBytes kek dn : Bytes) (fid : Nat)
    (sid : String) (s : St) (m : UploadMetadata)
    (hm : lookupSession s sid = some m)
    (hne : m.chunks_received_count ≠ m.total_chunks) :
    finalize_upload dekBytes kek dn fid sid s =
      (.error (.Validation "Incomplete upload"), cleanup_failed_upload sid m s) ∧
    (cleanup_failed_upload sid m s).storage_used_bytes = s.storage_used_bytes ∧
    lookupSession (cleanup_failed_upload sid m s) sid = none ∧
    (cleanup_failed_upload sid m s).uploadLockExpiry = none ∧
    ∀ i < m.chunks_received_count,
      chunkPath sid i ∉ (cleanup_failed_upload sid m s).staged := by
  refine ⟨?_, rfl, ?_, rfl, ?_⟩
  · unfold finalize_upload
    rw [hm]
    dsimp only
    rw [if_pos hne]
  · exact lookupSession_delSession { s with staged := _ } sid
  · intro i hi hmem
    have hmem' : chunkPath sid i ∈
        (List.range m.chunks_received_count).foldl
          (fun acc j => acc.filter (fun f => f ≠ chunkPath sid j)) s.staged := hmem
    rw [mem_foldl_filter] at hmem'
    obtain ⟨-, hall⟩ := hmem'
    have hthis := hall i (List.mem_range.mpr hi)
    simp at hthis

open files in
set_option maxRecDepth 100000 in
/-- Witness for C4 at a concrete session with one of two chunks received:
the staged file for index 0 is removed, both KV keys are gone, and the
ledger is untouched. -/
theorem c4_incomplete_finalize_witness :
    finalize_upload D32 D32 NZ 7 "U" incompleteSt =
      (.error (.Validation "Incomplete upload"),
        cleanup_failed_upload "U" incompleteMeta incompleteSt) ∧
    (cleanup_failed_upload "U" incompleteMeta incompleteSt).storage_used_bytes =
      incompleteSt.storage_used_bytes ∧
    lookupSession (cleanup_failed_upload "U" incompleteMeta incompleteSt) "U" = none ∧
    (cleanup_failed_upload "U" incompleteMeta incompleteSt).uploadLockExpiry = none ∧
    chunkPath "U" 0 ∉ (cleanup_failed_upload "U" incompleteMeta incompleteSt).staged := by
  have h := c4_incomplete_finalize D32 D32 NZ 7 "U" incompleteSt incompleteMeta
    (by decide) (by decide)
  exact ⟨h.1, h.2.1, h.2.2.1, h.2.2.2.1, h.2.2.2.2 0 (by decide)⟩

open files in
set_option maxRecDepth 100000 in
/-- Counterexample for C5 as stated: the accepted chunk 0 of session "U"
is staged under `uploads/files/U_0.encrypted_chunk`; the suffix is
`.encrypted_chunk`, not `.enc`, and no `U_0.enc` file is created. -/
theorem c5_counterexample :
    (upload_chunk D32 "U" 0 [5] NZ dupInit).1 = .ok 1 ∧
    chunkPath "U" 0 ∈ (upload_chunk D32 "U" 0 [5] NZ dupInit).2.staged ∧
    chunkPath "U" 0 = "uploads/files/U_0.encrypted_chunk" ∧
    "uploads/files/U_0.enc" ∉ (upload_chunk D32 "U" 0 [5] NZ dupInit).2.staged ∧
    chunkFilename "U" 0 ≠ "U_0.enc" := by
  decide

open files in
/-- Claim C5 as amended: every staged chunk written by an accepted chunk
upload lives in `uploads/files/` under the name
`{upload_id}_{index}.encrypted_chunk`, and the chunk table built at
finalize references every index by that same name. -/
theorem c5_chunk_naming (dekBytes : Bytes) (sid : String) (idx : Nat)
    (data nonce : Bytes) (s s' : St) (k : Nat) (m : UploadMetadata)
    (h : upload_chunk dekBytes sid idx data nonce s = (.ok k, s')) :
    chunkPath sid idx ∈ s'.staged ∧
    chunkPath sid idx = upload_dir ++ "/" ++ chunkFilename sid idx ∧
    ∀ i < m.chunk_nonces.length,
      ((buildChunkTable sid m).map (fun c => c.filename))[i]? =
        some (chunkFilename sid i) := by
  refine ⟨?_, rfl, ?_⟩
  · unfold upload_chunk at h
    cases hl : lookupSession s sid with
    | none => rw [hl] at h; exact absurd h (by simp)
    | some m0 =>
      rw [hl] at h
      simp only [aes.encrypt] at h
      split at h
      · exact absurd h (by simp)
      · split at h
        · exact absurd h (by simp)
        · injection h with h1 h2
          subst h2
          exact List.mem_cons_self _ _
  · intro i hi
    unfold buildChunkTable
    rw [List.map_map]
    rw [List.getElem?_map]
    rw [List.getElem?_range hi]
    rfl

open files in
set_option maxRecDepth 100000 in
/-- Witness for C5 (amended) at the concrete accepted upload of chunk 0
and the chunk table of a two-chunk session. -/
theorem c5_chunk_naming_witness :
    chunkPath "U" 0 ∈ dupOnce.staged ∧
    ((buildChunkTable "U" incompleteMeta).map (fun c => c.filename))[0]? =
      some (chunkFilename "U" 0) := by
  have h := c5_chunk_naming D32 "U" 0 [5] NZ dupInit dupOnce 1 incompleteMeta
    (by decide)
  exact ⟨h.1, h.2.2 0 (by decide)⟩

end Rocket
